import Mathlib

/-!
Verification development for the chronobox calendar-arithmetic and
timezone-offset engine (src/src/index.ts).

The JavaScript Date object stores an instant (milliseconds since the
Unix epoch) and exposes civil-field getters and setters.  The engine is
specified and exercised in an environment whose local clock is UTC, so
we model a Date value as its normalized civil decomposition
(year / month / day / hours / minutes / seconds / milliseconds), with
month zero-based exactly as JavaScript getMonth returns it.  Every
setter of the source is translated as a call to mkDate, which performs
the ECMAScript MakeDay / MakeTime / MakeDate field normalization in
civil space: month overflow folds into the year, day overflow walks
month by month (normDay), and the time components fold their overflow
into the day count.  This representation is in exact bijection with the
epoch-millisecond representation (getTime below), which is proved and
used throughout.
-/

/-- Gregorian leap-year predicate, as the host calendar implements it. -/
def isLeap (y : Int) : Bool :=
  (y % 4 == 0 && y % 100 != 0) || y % 400 == 0

/-- Leap-day contribution of a year, as an integer. -/
def leapAdd (y : Int) : Int := if isLeap y then 1 else 0

/-- Length in days of the zero-based month m of year y (28 for any
argument outside the canonical range, which never occurs after
normalization). -/
def daysInMonth (y : Int) (m : Int) : Int :=
  if m = 1 then 28 + leapAdd y
  else if m = 3 ∨ m = 5 ∨ m = 8 ∨ m = 10 then 30
  else 31

/-- Length in days of calendar year y. -/
def yearLen (y : Int) : Int := 365 + leapAdd y

/-- Number of days from 1970-01-01 to the first day of year y (negative
for earlier years).  Closed form counting leap years. -/
def epochDaysToYear (y : Int) : Int :=
  365 * (y - 1970) + (y - 1) / 4 - (y - 1) / 100 + (y - 1) / 400 - 477

/-- Number of days from January 1 to the first day of zero-based month m
in year y (canonical m between 0 and 11). -/
def monthDays (y : Int) (m : Int) : Int :=
  if m ≤ 0 then 0
  else if m = 1 then 31
  else if m = 2 then 59 + leapAdd y
  else if m = 3 then 90 + leapAdd y
  else if m = 4 then 120 + leapAdd y
  else if m = 5 then 151 + leapAdd y
  else if m = 6 then 181 + leapAdd y
  else if m = 7 then 212 + leapAdd y
  else if m = 8 then 243 + leapAdd y
  else if m = 9 then 273 + leapAdd y
  else if m = 10 then 304 + leapAdd y
  else if m = 11 then 334 + leapAdd y
  else 365 + leapAdd y

/-- Day number (days since 1970-01-01) of the civil triple (y, m, d);
linear in d, so it extends to unnormalized day values. -/
def rawDays (y m d : Int) : Int := epochDaysToYear y + monthDays y m + (d - 1)

/-- Fuel-indexed day-of-month normalization: walks month by month until
the day falls inside its month, exactly as ECMAScript MakeDay resolves
an out-of-range day argument.  Out of fuel it returns its input; the
wrapper normDay always supplies sufficient fuel. -/
def normDayFuel : Nat → Int → Int → Int → Int × Int × Int
  | 0, y, m, d => (y, m, d)
  | f + 1, y, m, d =>
    if d < 1 then
      let y2 := if m = 0 then y - 1 else y
      let m2 := if m = 0 then 11 else m - 1
      normDayFuel f y2 m2 (d + daysInMonth y2 m2)
    else if daysInMonth y m < d then
      let y2 := if m = 11 then y + 1 else y
      let m2 := if m = 11 then 0 else m + 1
      normDayFuel f y2 m2 (d - daysInMonth y m)
    else (y, m, d)

/-- Fuel bound for normDayFuel: enough steps to bring any day value into
range, since every step moves the day by at least 28. -/
def normDayFuelBound (d : Int) : Nat := (if d < 1 then 32 * (1 - d) else d).toNat

/-- Day-of-month normalization with sufficient fuel. -/
def normDay (y m d : Int) : Int × Int × Int := normDayFuel (normDayFuelBound d) y m d

/-- A JavaScript Date value of the engine, in its civil decomposition
(months zero-based, as getMonth returns them). -/
structure CivDate where
  year : Int
  month : Int
  day : Int
  hours : Int
  minutes : Int
  seconds : Int
  ms : Int
deriving DecidableEq, Repr

/-- The representation invariant of a Date: every civil field in its
canonical range.  Every Date the engine constructs satisfies it. -/
def ValidDate (dt : CivDate) : Prop :=
  0 ≤ dt.month ∧ dt.month ≤ 11 ∧
  1 ≤ dt.day ∧ dt.day ≤ daysInMonth dt.year dt.month ∧
  0 ≤ dt.hours ∧ dt.hours < 24 ∧
  0 ≤ dt.minutes ∧ dt.minutes < 60 ∧
  0 ≤ dt.seconds ∧ dt.seconds < 60 ∧
  0 ≤ dt.ms ∧ dt.ms < 1000

instance (dt : CivDate) : Decidable (ValidDate dt) := by
  unfold ValidDate; infer_instance

/-- ECMAScript field normalization (MakeTime, MakeDay, MakeDate composed
with the civil getters): builds the Date designated by arbitrary integer
civil arguments.  Time overflow folds into the day, month overflow folds
into the year, day overflow walks across months. -/
def mkDate (y m d h mi s ms : Int) : CivDate :=
  let time := h * 3600000 + mi * 60000 + s * 1000 + ms
  let dc := time / 86400000
  let tod := time % 86400000
  let y1 := y + m / 12
  let m1 := m % 12
  let r := normDay y1 m1 (d + dc)
  ⟨r.1, r.2.1, r.2.2,
    tod / 3600000, tod / 60000 % 60, tod / 1000 % 60, tod % 1000⟩

/-- Date.prototype.getTime: the epoch-millisecond instant of a Date. -/
def getTime (dt : CivDate) : Int :=
  86400000 * rawDays dt.year dt.month dt.day +
    dt.hours * 3600000 + dt.minutes * 60000 + dt.seconds * 1000 + dt.ms

/-- ECMAScript MakeFullYear: the multi-argument Date constructor and
Date.UTC fold a year argument between 0 and 99 to 1900 plus that value;
the field setters such as setFullYear do not apply this rule. -/
def makeFullYear (y : Int) : Int := if 0 ≤ y ∧ y ≤ 99 then 1900 + y else y

/-- Modelled from the spec: the closed CalendarUnit enumeration of
src/src/enums.ts, a file absent from the sources; eight units,
Millisecond through Year (section 3 of the spec). -/
inductive TimeUnit where
  | MILLISECONDS | SECONDS | MINUTES | HOURS | DAYS | WEEKS | MONTHS | YEARS
deriving DecidableEq, Repr

/-- Modelled from the spec: the runtime string values of the TimeUnit
enumeration and their recognition, standing in for the absent enums.ts
and the isValidTimeUnit helper of the absent utils.ts.  A runtime unit
argument is null or an arbitrary string. -/
def parseTimeUnit : Option String → Option TimeUnit
  | some "milliseconds" => some .MILLISECONDS
  | some "seconds" => some .SECONDS
  | some "minutes" => some .MINUTES
  | some "hours" => some .HOURS
  | some "days" => some .DAYS
  | some "weeks" => some .WEEKS
  | some "months" => some .MONTHS
  | some "years" => some .YEARS
  | _ => none

/-- Modelled from the spec: isValidTimeUnit of the absent utils.ts,
membership of a runtime value in the closed enumeration. -/
def isValidTimeUnit (u : Option String) : Bool := (parseTimeUnit u).isSome

namespace ChronoBox

/-- ChronoBox.add (src/src/index.ts lines 34-86): every case of the
switch applies one civil-field setter to a copy of the date; the
MONTHS and YEARS cases first move to day 1, shift the month or year,
compute the last day of the destination month by building day 0 of the
following month, and clamp. -/
def add (dt : CivDate) (amount : Int) (unit : TimeUnit) : CivDate :=
  match unit with
  | .MILLISECONDS => mkDate dt.year dt.month dt.day dt.hours dt.minutes dt.seconds (dt.ms + amount)
  | .SECONDS => mkDate dt.year dt.month dt.day dt.hours dt.minutes (dt.seconds + amount) dt.ms
  | .MINUTES => mkDate dt.year dt.month dt.day dt.hours (dt.minutes + amount) dt.seconds dt.ms
  | .HOURS => mkDate dt.year dt.month dt.day (dt.hours + amount) dt.minutes dt.seconds dt.ms
  | .DAYS => mkDate dt.year dt.month (dt.day + amount) dt.hours dt.minutes dt.seconds dt.ms
  | .WEEKS => mkDate dt.year dt.month (dt.day + amount * 7) dt.hours dt.minutes dt.seconds dt.ms
  | .MONTHS =>
    let dayOfMonth := dt.day
    let d1 := mkDate dt.year dt.month 1 dt.hours dt.minutes dt.seconds dt.ms
    let d2 := mkDate d1.year (d1.month + amount) d1.day d1.hours d1.minutes d1.seconds d1.ms
    let maxDaysInNewMonth := (mkDate (makeFullYear d2.year) (d2.month + 1) 0 0 0 0 0).day
    mkDate d2.year d2.month (min dayOfMonth maxDaysInNewMonth) d2.hours d2.minutes d2.seconds d2.ms
  | .YEARS =>
    let dayOfMonth := dt.day
    let d1 := mkDate dt.year dt.month 1 dt.hours dt.minutes dt.seconds dt.ms
    let d2 := mkDate (d1.year + amount) d1.month d1.day d1.hours d1.minutes d1.seconds d1.ms
    let maxDaysInNewMonth := (mkDate (makeFullYear d2.year) (d2.month + 1) 0 0 0 0 0).day
    mkDate d2.year d2.month (min dayOfMonth maxDaysInNewMonth) d2.hours d2.minutes d2.seconds d2.ms

/-- ChronoBox.subtract (lines 94-96): add with the amount negated. -/
def subtract (dt : CivDate) (amount : Int) (unit : TimeUnit) : CivDate :=
  add dt (-amount) unit

/-- ChronoBox.diff (lines 104-136): millisecond difference divided by
the unit length for the fixed-duration units (fractional results
permitted), calendar component differences for MONTHS and YEARS. -/
def diff (a : CivDate) (b : CivDate) (unit : TimeUnit) : ℚ :=
  let diffMs : Int := getTime a - getTime b
  match unit with
  | .MILLISECONDS => (diffMs : ℚ)
  | .SECONDS => (diffMs : ℚ) / 1000
  | .MINUTES => (diffMs : ℚ) / 60000
  | .HOURS => (diffMs : ℚ) / 3600000
  | .DAYS => (diffMs : ℚ) / 86400000
  | .WEEKS => (diffMs : ℚ) / 604800000
  | .MONTHS => ((a.year - b.year) * 12 + (a.month - b.month) : Int)
  | .YEARS => ((a.year - b.year : Int) : ℚ)

/-- Modelled from the spec: truncateDate of the absent utils.ts, used by
startOf; truncation to the beginning of the containing unit period, the
week starting Monday (spec section 4.1).  1970-01-01 was a Thursday. -/
def truncateDate (dt : CivDate) (unit : TimeUnit) : CivDate :=
  match unit with
  | .MILLISECONDS => dt
  | .SECONDS => mkDate dt.year dt.month dt.day dt.hours dt.minutes dt.seconds 0
  | .MINUTES => mkDate dt.year dt.month dt.day dt.hours dt.minutes 0 0
  | .HOURS => mkDate dt.year dt.month dt.day dt.hours 0 0 0
  | .DAYS => mkDate dt.year dt.month dt.day 0 0 0 0
  | .WEEKS =>
    let dowMon := (rawDays dt.year dt.month dt.day + 3) % 7
    mkDate dt.year dt.month (dt.day - dowMon) 0 0 0 0
  | .MONTHS => mkDate dt.year dt.month 1 0 0 0 0
  | .YEARS => mkDate (makeFullYear dt.year) 0 1 0 0 0 0

/-- ChronoBox.endOf (lines 545-609), the typed switch: advance to the
final millisecond of the containing unit period. -/
def endOf (dt : CivDate) (unit : TimeUnit) : CivDate :=
  match unit with
  | .MILLISECONDS => dt
  | .SECONDS => mkDate dt.year dt.month dt.day dt.hours dt.minutes dt.seconds 999
  | .MINUTES => mkDate dt.year dt.month dt.day dt.hours dt.minutes 59 999
  | .HOURS => mkDate dt.year dt.month dt.day dt.hours 59 59 999
  | .DAYS => mkDate dt.year dt.month dt.day 23 59 59 999
  | .WEEKS =>
    let weekStart := truncateDate dt .WEEKS
    mkDate weekStart.year weekStart.month (weekStart.day + 6) 23 59 59 999
  | .MONTHS => mkDate (makeFullYear dt.year) (dt.month + 1) 0 23 59 59 999
  | .YEARS => mkDate (makeFullYear dt.year) 11 31 23 59 59 999

/-- ChronoBox.add with its runtime unit validation: an unrecognized unit
falls through every switch case to the default, which throws
ChronoBoxError (lines 80-82). -/
def addRaw (dt : CivDate) (amount : Int) (u : Option String) :
    Except String CivDate :=
  match parseTimeUnit u with
  | some unit => .ok (add dt amount unit)
  | none => .error "Unsupported time unit"

/-- ChronoBox.diff with its runtime unit validation (isValidTimeUnit
guard, lines 108-110). -/
def diffRaw (a b : CivDate) (u : Option String) : Except String ℚ :=
  match parseTimeUnit u with
  | some unit => .ok (diff a b unit)
  | none => .error "Unsupported time unit"

/-- ChronoBox.startOf with its runtime unit validation (lines 530-538). -/
def startOfRaw (dt : CivDate) (u : Option String) : Except String CivDate :=
  match parseTimeUnit u with
  | some unit => .ok (truncateDate dt unit)
  | none => .error "Unsupported time unit"

/-- ChronoBox.endOf with its runtime unit validation (lines 545-548). -/
def endOfRaw (dt : CivDate) (u : Option String) : Except String CivDate :=
  match parseTimeUnit u with
  | some unit => .ok (endOf dt unit)
  | none => .error "Unsupported time unit"

end ChronoBox

/-- Second-precision civil fields, as the Intl date-time formatter of
the source renders them (numeric year, month, day, hour, minute,
second; no sub-second part; month kept zero-based as elsewhere). -/
structure CivFields where
  year : Int
  month : Int
  day : Int
  hour : Int
  minute : Int
  second : Int
deriving DecidableEq, Repr

/-- Year loop of the day-number decomposition: walks year by year from
1970 until the remaining day offset falls inside a year. -/
def cfdYearLoop : Nat → Int → Int → Int × Int
  | 0, y, z => (y, z)
  | f + 1, y, z =>
    if z < 0 then cfdYearLoop f (y - 1) (z + yearLen (y - 1))
    else if yearLen y ≤ z then cfdYearLoop f (y + 1) (z - yearLen y)
    else (y, z)

/-- Month loop of the day-number decomposition: walks month by month
from January until the remaining day offset falls inside a month. -/
def cfdMonthLoop : Nat → Int → Int → Int → Int × Int
  | 0, _, m, r => (m, r)
  | f + 1, y, m, r =>
    if daysInMonth y m ≤ r then cfdMonthLoop f y (m + 1) (r - daysInMonth y m)
    else (m, r)

/-- Civil triple (year, zero-based month, day) of a day number (days
since 1970-01-01): the inverse of rawDays on canonical triples. -/
def civilFromDays (z : Int) : Int × Int × Int :=
  let p := cfdYearLoop (z.natAbs + 1) 1970 z
  let q := cfdMonthLoop 12 p.1 0 p.2
  (p.1, q.1, q.2 + 1)

/-- UTC rendering of an instant at second precision: what the fixed-zone
UTC formatter of the source produces for an epoch-millisecond value. -/
def utcCivil (t : Int) : CivFields :=
  let days := t / 86400000
  let tod := t % 86400000
  let c := civilFromDays days
  ⟨c.1, c.2.1, c.2.2, tod / 3600000, tod / 60000 % 60, tod / 1000 % 60⟩

/-- Reinterpretation of rendered civil fields as a UTC timestamp: the
source appends " GMT" to the formatted string and parses it back, which
is exactly the UTC epoch-millisecond value of the fields. -/
def fieldsToMs (f : CivFields) : Int :=
  86400000 * rawDays f.year f.month f.day +
    f.hour * 3600000 + f.minute * 60000 + f.second * 1000

/-- A civil-time oracle: renders an instant as second-precision civil
fields for a named zone, the only capability the engine assumes. -/
def CivilOracle : Type := String → Int → CivFields

namespace ChronoBox

/-- ChronoBox.getTimezoneOffsetMinutes (lines 316-345): renders the
instant once under the requested zone through the oracle and once under
the fixed zone UTC, reinterprets both renderings as UTC timestamps, and
divides the difference by 60000 (JavaScript number division, so the
quotient may be fractional). -/
def getTimezoneOffsetMinutes (o : CivilOracle) (t : Int) (tz : String) : ℚ :=
  ((fieldsToMs (utcCivil t) - fieldsToMs (o tz t) : Int) : ℚ) / 60000

/-- Binary-search loop of findExactTransitionHour, fuel-indexed: while
the gap exceeds one minute, probe the floor midpoint; keep the half
whose boundary offsets still disagree with the recorded baseline.
Out of fuel it answers none; the wrapper supplies provably sufficient
fuel. -/
def fETLoop (o : CivilOracle) (tz : String) (base : ℚ) :
    Nat → Int → Int → Option Int
  | 0, s, e => if 60000 < e - s then none else some e
  | f + 1, s, e =>
    if 60000 < e - s then
      let mid := (s + e) / 2
      if getTimezoneOffsetMinutes o mid tz = base then fETLoop o tz base f mid e
      else fETLoop o tz base f s mid
    else some e

/-- ChronoBox.findExactTransitionHour (lines 354-379): records the
offset at the start instant as baseline and binary-searches the
bracketing interval down to one minute, returning the upper bound. -/
def findExactTransitionHour (o : CivilOracle) (startDate endDate : Int)
    (tz : String) : Int :=
  let base := getTimezoneOffsetMinutes o startDate tz
  (fETLoop o tz base (endDate - startDate).toNat startDate endDate).getD endDate

/-- ChronoBox.isInDST (lines 387-403): samples the offset at January 1
and July 1 of the calendar year of the date; equal anchor offsets mean
no DST; otherwise the date is in DST exactly when its offset equals the
larger anchor offset. -/
def isInDST (o : CivilOracle) (dt : CivDate) (tz : String) : Bool :=
  let janOffset := getTimezoneOffsetMinutes o (getTime (mkDate (makeFullYear dt.year) 0 1 0 0 0 0)) tz
  let julyOffset := getTimezoneOffsetMinutes o (getTime (mkDate (makeFullYear dt.year) 6 1 0 0 0 0)) tz
  if janOffset = julyOffset then false
  else
    let dateOffset := getTimezoneOffsetMinutes o (getTime dt) tz
    dateOffset = max janOffset julyOffset

/-- Daily scan loop of findDSTTransitions (lines 435-463), instrumented
with the number of in-loop offset samples taken (the last component).
The day counter runs to 366 but the loop leaves as soon as the sampled
day falls outside the requested year; on an offset change it refines
the transition through findExactTransitionHour using the two straddling
days and records it in the first free slot of the result. -/
def findDSTAux (o : CivilOracle) (tz : String) (year : Int) :
    Nat → Int → ℚ → Option Int → Option Int → Nat →
    Option Int × Option Int × Nat
  | 0, _, _, s, e, cnt => (s, e, cnt)
  | f + 1, day, prevOffset, s, e, cnt =>
    let currentDate := mkDate (makeFullYear year) 0 day 0 0 0 0
    if year < currentDate.year then (s, e, cnt)
    else
      let currentOffset := getTimezoneOffsetMinutes o (getTime currentDate) tz
      if currentOffset = prevOffset then
        findDSTAux o tz year f (day + 1) prevOffset s e (cnt + 1)
      else
        let transitionDate := findExactTransitionHour o
          (getTime (mkDate (makeFullYear year) 0 (day - 1) 0 0 0 0)) (getTime currentDate) tz
        let s2 := if s.isNone then some transitionDate else s
        let e2 := if s.isNone then e else if e.isNone then some transitionDate else e
        findDSTAux o tz year f (day + 1) currentOffset s2 e2 (cnt + 1)

/-- ChronoBox.findDSTTransitions (lines 411-466), instrumented with the
number of daily offset samples taken by the coarse scan: anchor offsets
at January 1 and July 1; equal anchors return immediately with both
transitions absent; otherwise the daily scan runs from day 2. -/
def findDSTTransitions (o : CivilOracle) (year : Int) (tz : String) :
    Option Int × Option Int × Nat :=
  let startDate := mkDate (makeFullYear year) 0 1 0 0 0 0
  let janOffset := getTimezoneOffsetMinutes o (getTime startDate) tz
  let julyOffset := getTimezoneOffsetMinutes o (getTime (mkDate (makeFullYear year) 6 1 0 0 0 0)) tz
  if janOffset = julyOffset then (none, none, 0)
  else findDSTAux o tz year 365 2 janOffset none none 0

end ChronoBox

lemma leapAdd_bounds (y : Int) : 0 ≤ leapAdd y ∧ leapAdd y ≤ 1 := by
  unfold leapAdd; split <;> omega

lemma daysInMonth_bounds (y m : Int) : 28 ≤ daysInMonth y m ∧ daysInMonth y m ≤ 31 := by
  have := leapAdd_bounds y
  unfold daysInMonth; split_ifs <;> omega

lemma isLeap_iff (y : Int) :
    isLeap y = true ↔ (y % 4 = 0 ∧ y % 100 ≠ 0) ∨ y % 400 = 0 := by
  simp [isLeap, Bool.or_eq_true, Bool.and_eq_true, beq_iff_eq, bne_iff_ne]

lemma leapAdd_eq (y : Int) :
    leapAdd y = if (y % 4 = 0 ∧ y % 100 ≠ 0) ∨ y % 400 = 0 then 1 else 0 := by
  unfold leapAdd
  by_cases h : (y % 4 = 0 ∧ y % 100 ≠ 0) ∨ y % 400 = 0
  · rw [if_pos ((isLeap_iff y).mpr h), if_pos h]
  · rw [if_neg (fun hc => h ((isLeap_iff y).mp hc)), if_neg h]

lemma epochDaysToYear_step (y : Int) :
    epochDaysToYear (y + 1) = epochDaysToYear y + yearLen y := by
  unfold epochDaysToYear yearLen
  rw [leapAdd_eq]
  split <;> omega

lemma monthDays_step (y m : Int) (h0 : 0 ≤ m) (h1 : m ≤ 10) :
    monthDays y (m + 1) = monthDays y m + daysInMonth y m := by
  have := leapAdd_bounds y
  interval_cases m <;> simp [monthDays, daysInMonth] <;> omega

lemma monthDays_window (y m : Int) (h0 : 0 ≤ m) (h1 : m ≤ 11) :
    0 ≤ monthDays y m ∧ monthDays y m + daysInMonth y m ≤ yearLen y := by
  have := leapAdd_bounds y
  interval_cases m <;> simp [monthDays, daysInMonth, yearLen] <;> omega

lemma monthDays_mono (y m m2 : Int) (h0 : 0 ≤ m) (h2 : m < m2) (h3 : m2 ≤ 11) :
    monthDays y m + daysInMonth y m ≤ monthDays y m2 := by
  have := leapAdd_bounds y
  have h4 : m ≤ 10 := by omega
  interval_cases m <;> interval_cases m2 <;> simp [monthDays, daysInMonth] <;> omega

lemma rawDays_prev0 (y d : Int) :
    rawDays (y - 1) 11 (d + daysInMonth (y - 1) 11) = rawDays y 0 d := by
  have h := epochDaysToYear_step (y - 1)
  have h2 : y - 1 + 1 = y := by ring
  rw [h2] at h
  unfold rawDays yearLen at *
  norm_num [monthDays, daysInMonth]
  omega

lemma rawDays_prevS (y m d : Int) (h0 : 1 ≤ m) (h1 : m ≤ 11) :
    rawDays y (m - 1) (d + daysInMonth y (m - 1)) = rawDays y m d := by
  have h2 := monthDays_step y (m - 1) (by omega) (by omega)
  have h3 : m - 1 + 1 = m := by ring
  rw [h3] at h2
  unfold rawDays
  omega

lemma rawDays_next11 (y d : Int) :
    rawDays (y + 1) 0 (d - daysInMonth y 11) = rawDays y 11 d := by
  have h := epochDaysToYear_step y
  unfold rawDays yearLen at *
  norm_num [monthDays, daysInMonth]
  omega

lemma rawDays_nextS (y m d : Int) (h0 : 0 ≤ m) (h1 : m ≤ 10) :
    rawDays y (m + 1) (d - daysInMonth y m) = rawDays y m d := by
  have h2 := monthDays_step y m h0 h1
  unfold rawDays
  omega

lemma normDayFuelBound_dn (d step : Int) (f : Nat) (h28 : 28 ≤ step) (h31 : step ≤ 31)
    (hf : normDayFuelBound d ≤ f + 1) (hd : d < 1) :
    normDayFuelBound (d + step) ≤ f := by
  unfold normDayFuelBound at *
  split at hf
  · split <;> omega
  · omega

lemma normDayFuelBound_up (d step : Int) (f : Nat) (h28 : 28 ≤ step)
    (hf : normDayFuelBound d ≤ f + 1) (hd : ¬ d < 1) (hgt : step < d) :
    normDayFuelBound (d - step) ≤ f := by
  unfold normDayFuelBound at *
  split at hf
  · omega
  · split <;> omega

lemma normDayFuel_spec (f : Nat) : ∀ (y m d : Int), 0 ≤ m → m ≤ 11 →
    normDayFuelBound d ≤ f →
    0 ≤ (normDayFuel f y m d).2.1 ∧ (normDayFuel f y m d).2.1 ≤ 11 ∧
    1 ≤ (normDayFuel f y m d).2.2 ∧
    (normDayFuel f y m d).2.2 ≤ daysInMonth (normDayFuel f y m d).1 (normDayFuel f y m d).2.1 ∧
    rawDays (normDayFuel f y m d).1 (normDayFuel f y m d).2.1 (normDayFuel f y m d).2.2 =
      rawDays y m d := by
  induction f with
  | zero =>
    intro y m d h0 h1 hf
    exfalso
    unfold normDayFuelBound at hf
    split at hf <;> omega
  | succ f ih =>
    intro y m d h0 h1 hf
    by_cases hd : d < 1
    · by_cases hm : m = 0
      · subst hm
        have hb := daysInMonth_bounds (y - 1) 11
        have hrec := ih (y - 1) 11 (d + daysInMonth (y - 1) 11) (by omega) (by omega)
          (normDayFuelBound_dn d (daysInMonth (y - 1) 11) f hb.1 hb.2 hf hd)
        have hstep : normDayFuel (f + 1) y 0 d =
            normDayFuel f (y - 1) 11 (d + daysInMonth (y - 1) 11) := by
          rw [normDayFuel]
          norm_num [hd]
        rw [hstep]
        exact ⟨hrec.1, hrec.2.1, hrec.2.2.1, hrec.2.2.2.1, by rw [hrec.2.2.2.2, rawDays_prev0]⟩
      · have hb := daysInMonth_bounds y (m - 1)
        have hrec := ih y (m - 1) (d + daysInMonth y (m - 1)) (by omega) (by omega)
          (normDayFuelBound_dn d (daysInMonth y (m - 1)) f hb.1 hb.2 hf hd)
        have hstep : normDayFuel (f + 1) y m d =
            normDayFuel f y (m - 1) (d + daysInMonth y (m - 1)) := by
          rw [normDayFuel]
          simp [hd, hm]
        rw [hstep]
        exact ⟨hrec.1, hrec.2.1, hrec.2.2.1, hrec.2.2.2.1,
          by rw [hrec.2.2.2.2, rawDays_prevS y m d (by omega) h1]⟩
    · by_cases hdim : daysInMonth y m < d
      · by_cases hm : m = 11
        · subst hm
          have hb := daysInMonth_bounds y 11
          have hrec := ih (y + 1) 0 (d - daysInMonth y 11) (by omega) (by omega)
            (normDayFuelBound_up d (daysInMonth y 11) f hb.1 hf hd hdim)
          have hstep : normDayFuel (f + 1) y 11 d =
              normDayFuel f (y + 1) 0 (d - daysInMonth y 11) := by
            rw [normDayFuel]
            norm_num [hd, hdim]
          rw [hstep]
          exact ⟨hrec.1, hrec.2.1, hrec.2.2.1, hrec.2.2.2.1,
            by rw [hrec.2.2.2.2, rawDays_next11]⟩
        · have hb := daysInMonth_bounds y m
          have hrec := ih y (m + 1) (d - daysInMonth y m) (by omega) (by omega)
            (normDayFuelBound_up d (daysInMonth y m) f hb.1 hf hd hdim)
          have hstep : normDayFuel (f + 1) y m d =
              normDayFuel f y (m + 1) (d - daysInMonth y m) := by
            rw [normDayFuel]
            simp [hd, hdim, hm]
          rw [hstep]
          exact ⟨hrec.1, hrec.2.1, hrec.2.2.1, hrec.2.2.2.1,
            by rw [hrec.2.2.2.2, rawDays_nextS y m d h0 (by omega)]⟩
      · have hstep : normDayFuel (f + 1) y m d = (y, m, d) := by
          rw [normDayFuel]
          simp [hd, hdim]
        rw [hstep]
        exact ⟨h0, h1, (by omega : 1 ≤ d), (by omega : d ≤ daysInMonth y m), rfl⟩

lemma normDay_spec (y m d : Int) (h0 : 0 ≤ m) (h1 : m ≤ 11) :
    0 ≤ (normDay y m d).2.1 ∧ (normDay y m d).2.1 ≤ 11 ∧
    1 ≤ (normDay y m d).2.2 ∧
    (normDay y m d).2.2 ≤ daysInMonth (normDay y m d).1 (normDay y m d).2.1 ∧
    rawDays (normDay y m d).1 (normDay y m d).2.1 (normDay y m d).2.2 = rawDays y m d :=
  normDayFuel_spec (normDayFuelBound d) y m d h0 h1 le_rfl

lemma normDayFuel_id (f : Nat) (y m d : Int) (hd1 : 1 ≤ d) (hd2 : d ≤ daysInMonth y m) :
    normDayFuel f y m d = (y, m, d) := by
  cases f with
  | zero => rfl
  | succ f =>
    rw [normDayFuel]
    rw [if_neg (by omega), if_neg (by omega)]

lemma normDay_id (y m d : Int) (hd1 : 1 ≤ d) (hd2 : d ≤ daysInMonth y m) :
    normDay y m d = (y, m, d) :=
  normDayFuel_id _ y m d hd1 hd2

lemma rawDays_linear (y m d k : Int) : rawDays y m (d + k) = rawDays y m d + k := by
  unfold rawDays; ring

lemma mkDate_valid (y m d h mi s ms : Int) : ValidDate (mkDate y m d h mi s ms) := by
  have hsp := normDay_spec (y + m / 12) (m % 12)
    (d + (h * 3600000 + mi * 60000 + s * 1000 + ms) / 86400000) (by omega) (by omega)
  unfold ValidDate mkDate
  dsimp only
  exact ⟨hsp.1, hsp.2.1, hsp.2.2.1, hsp.2.2.2.1,
    by omega, by omega, by omega, by omega, by omega, by omega, by omega, by omega⟩

lemma getTime_mkDate (y m d h mi s ms : Int) :
    getTime (mkDate y m d h mi s ms) =
      86400000 * rawDays (y + m / 12) (m % 12) d +
        (h * 3600000 + mi * 60000 + s * 1000 + ms) := by
  have hsp := normDay_spec (y + m / 12) (m % 12)
    (d + (h * 3600000 + mi * 60000 + s * 1000 + ms) / 86400000) (by omega) (by omega)
  have hlin := rawDays_linear (y + m / 12) (m % 12) d
    ((h * 3600000 + mi * 60000 + s * 1000 + ms) / 86400000)
  unfold getTime mkDate
  dsimp only
  rw [hsp.2.2.2.2, hlin]
  omega

lemma mkDate_id (dt : CivDate) (hv : ValidDate dt) :
    mkDate dt.year dt.month dt.day dt.hours dt.minutes dt.seconds dt.ms = dt := by
  rcases dt with ⟨Y, Mo, D, H, Mi, S, Ms⟩
  obtain ⟨h1, h2, h3, h4, h5, h6, h7, h8, h9, h10, h11, h12⟩ := hv
  dsimp only at *
  unfold mkDate
  dsimp only
  rw [show (H * 3600000 + Mi * 60000 + S * 1000 + Ms) / 86400000 = 0 from by omega]
  rw [show Mo / 12 = 0 from by omega, show Mo % 12 = Mo from by omega]
  rw [add_zero, add_zero, normDay_id Y Mo D h3 h4]
  rw [CivDate.mk.injEq]
  refine ⟨rfl, rfl, rfl, by omega, by omega, by omega, by omega⟩

lemma rawDays_year_window (y m d : Int) (h0 : 0 ≤ m) (h1 : m ≤ 11)
    (hd1 : 1 ≤ d) (hd2 : d ≤ daysInMonth y m) :
    epochDaysToYear y ≤ rawDays y m d ∧ rawDays y m d < epochDaysToYear (y + 1) := by
  have hw := monthDays_window y m h0 h1
  have hstep := epochDaysToYear_step y
  unfold rawDays yearLen at *
  omega

lemma epochDaysToYear_mono (y y2 : Int) (h : y ≤ y2) :
    epochDaysToYear y ≤ epochDaysToYear y2 := by
  unfold epochDaysToYear
  omega

lemma rawDays_inj (y m d y2 m2 d2 : Int)
    (a0 : 0 ≤ m) (a1 : m ≤ 11) (a2 : 1 ≤ d) (a3 : d ≤ daysInMonth y m)
    (b0 : 0 ≤ m2) (b1 : m2 ≤ 11) (b2 : 1 ≤ d2) (b3 : d2 ≤ daysInMonth y2 m2)
    (heq : rawDays y m d = rawDays y2 m2 d2) :
    y = y2 ∧ m = m2 ∧ d = d2 := by
  have hy : y = y2 := by
    rcases lt_trichotomy y y2 with h | h | h
    · exfalso
      have w1 := rawDays_year_window y m d a0 a1 a2 a3
      have w2 := rawDays_year_window y2 m2 d2 b0 b1 b2 b3
      have := epochDaysToYear_mono (y + 1) y2 (by omega)
      omega
    · exact h
    · exfalso
      have w1 := rawDays_year_window y m d a0 a1 a2 a3
      have w2 := rawDays_year_window y2 m2 d2 b0 b1 b2 b3
      have := epochDaysToYear_mono (y2 + 1) y (by omega)
      omega
  subst hy
  have hm : m = m2 := by
    rcases lt_trichotomy m m2 with h | h | h
    · exfalso
      have := monthDays_mono y m m2 a0 h b1
      unfold rawDays at heq
      omega
    · exact h
    · exfalso
      have := monthDays_mono y m2 m b0 h a1
      unfold rawDays at heq
      omega
  subst hm
  unfold rawDays at heq
  omega

lemma getTime_bound (dt : CivDate) (hv : ValidDate dt) :
    0 ≤ dt.hours * 3600000 + dt.minutes * 60000 + dt.seconds * 1000 + dt.ms ∧
    dt.hours * 3600000 + dt.minutes * 60000 + dt.seconds * 1000 + dt.ms < 86400000 := by
  obtain ⟨_, _, _, _, h5, h6, h7, h8, h9, h10, h11, h12⟩ := hv
  omega

lemma getTime_inj (dt dt2 : CivDate) (v : ValidDate dt) (v2 : ValidDate dt2)
    (heq : getTime dt = getTime dt2) : dt = dt2 := by
  have t1 := getTime_bound dt v
  have t2 := getTime_bound dt2 v2
  obtain ⟨a0, a1, a2, a3, a5, a6, a7, a8, a9, a10, a11, a12⟩ := v
  obtain ⟨b0, b1, b2, b3, b5, b6, b7, b8, b9, b10, b11, b12⟩ := v2
  unfold getTime at heq
  have hr : rawDays dt.year dt.month dt.day = rawDays dt2.year dt2.month dt2.day ∧
      dt.hours * 3600000 + dt.minutes * 60000 + dt.seconds * 1000 + dt.ms =
        dt2.hours * 3600000 + dt2.minutes * 60000 + dt2.seconds * 1000 + dt2.ms := by
    omega
  have hd := rawDays_inj dt.year dt.month dt.day dt2.year dt2.month dt2.day
    a0 a1 a2 a3 b0 b1 b2 b3 hr.1
  rcases dt with ⟨Y, Mo, D, H, Mi, S, Ms⟩
  rcases dt2 with ⟨Y2, Mo2, D2, H2, Mi2, S2, Ms2⟩
  dsimp only at *
  rw [CivDate.mk.injEq]
  refine ⟨hd.1, hd.2.1, hd.2.2, ?_, ?_, ?_, ?_⟩ <;> omega

/-- Millisecond length of each fixed-duration unit (zero for the two
calendar-aware units, which have no fixed length). -/
def unitMs : TimeUnit → Int
  | .MILLISECONDS => 1
  | .SECONDS => 1000
  | .MINUTES => 60000
  | .HOURS => 3600000
  | .DAYS => 86400000
  | .WEEKS => 604800000
  | .MONTHS => 0
  | .YEARS => 0

lemma add_valid (dt : CivDate) (n : Int) (u : TimeUnit) :
    ValidDate (ChronoBox.add dt n u) := by
  cases u <;> exact mkDate_valid _ _ _ _ _ _ _

lemma getTime_add_unit (dt : CivDate) (hv : ValidDate dt) (n : Int) (u : TimeUnit)
    (hu1 : u ≠ TimeUnit.MONTHS) (hu2 : u ≠ TimeUnit.YEARS) :
    getTime (ChronoBox.add dt n u) = getTime dt + n * unitMs u := by
  obtain ⟨a0, a1, a2, a3, a5, a6, a7, a8, a9, a10, a11, a12⟩ := hv
  have e0 : dt.month / 12 = 0 := by omega
  have e1 : dt.month % 12 = dt.month := by omega
  have e2 := rawDays_linear dt.year dt.month dt.day n
  have e3 := rawDays_linear dt.year dt.month dt.day (n * 7)
  cases u
  case MONTHS => exact absurd rfl hu1
  case YEARS => exact absurd rfl hu2
  all_goals
    simp only [ChronoBox.add, unitMs]
    rw [getTime_mkDate, e0, e1, add_zero]
    unfold getTime
    omega

lemma mkDate_id7 (Y Mo D H Mi S Ms : Int)
    (h : ValidDate ⟨Y, Mo, D, H, Mi, S, Ms⟩) :
    mkDate Y Mo D H Mi S Ms = ⟨Y, Mo, D, H, Mi, S, Ms⟩ :=
  mkDate_id ⟨Y, Mo, D, H, Mi, S, Ms⟩ h

lemma normDay_zero (y m : Int) (h0 : 0 ≤ m) (h1 : m ≤ 11) :
    normDay y m 0 = (if m = 0 then y - 1 else y, if m = 0 then 11 else m - 1,
      daysInMonth (if m = 0 then y - 1 else y) (if m = 0 then 11 else m - 1)) := by
  obtain ⟨c1, c2, c3, c4, c5⟩ := normDay_spec y m 0 h0 h1
  have hre : normDay y m 0 =
      ((normDay y m 0).1, (normDay y m 0).2.1, (normDay y m 0).2.2) := rfl
  by_cases hm : m = 0
  · subst hm
    norm_num
    have hraw : rawDays (y - 1) 11 (daysInMonth (y - 1) 11) = rawDays y 0 0 := by
      have h := rawDays_prev0 y 0
      rwa [zero_add] at h
    have hb := daysInMonth_bounds (y - 1) 11
    have hinj := rawDays_inj (normDay y 0 0).1 (normDay y 0 0).2.1 (normDay y 0 0).2.2
      (y - 1) 11 (daysInMonth (y - 1) 11)
      c1 c2 c3 c4 (by omega) (by omega) (by omega) (le_refl _)
      (by rw [c5, ← hraw])
    rw [hre, hinj.1, hinj.2.1, hinj.2.2]
  · rw [if_neg hm]
    have hraw : rawDays y (m - 1) (daysInMonth y (m - 1)) = rawDays y m 0 := by
      have h := rawDays_prevS y m 0 (by omega) h1
      rwa [zero_add] at h
    have hb := daysInMonth_bounds y (m - 1)
    have hinj := rawDays_inj (normDay y m 0).1 (normDay y m 0).2.1 (normDay y m 0).2.2
      y (m - 1) (daysInMonth y (m - 1))
      c1 c2 c3 c4 (by omega) (by omega) (by omega) (le_refl _)
      (by rw [c5, ← hraw])
    rw [hre, hinj.1, hinj.2.1, hinj.2.2]
    simp [hm]

lemma mkDate_day0 (Y Mo : Int) (h0 : 0 ≤ Mo) (h1 : Mo ≤ 11) :
    mkDate Y (Mo + 1) 0 0 0 0 0 = ⟨Y, Mo, daysInMonth Y Mo, 0, 0, 0, 0⟩ := by
  unfold mkDate
  dsimp only
  norm_num
  by_cases hm : Mo = 11
  · subst hm
    norm_num
    rw [normDay_zero (Y + 1) 0 (by omega) (by omega)]
    norm_num
  · have e1 : (Mo + 1) / 12 = 0 := by omega
    have e2 : (Mo + 1) % 12 = Mo + 1 := by omega
    rw [e1, e2, add_zero, normDay_zero Y (Mo + 1) (by omega) (by omega)]
    simp only [if_neg (show ¬ Mo + 1 = 0 by omega)]
    norm_num

lemma mkDate_day1 (Y Mo H Mi S Ms : Int)
    (h5 : 0 ≤ H) (h6 : H < 24) (h7 : 0 ≤ Mi) (h8 : Mi < 60)
    (h9 : 0 ≤ S) (h10 : S < 60) (h11 : 0 ≤ Ms) (h12 : Ms < 1000) :
    mkDate Y Mo 1 H Mi S Ms = ⟨Y + Mo / 12, Mo % 12, 1, H, Mi, S, Ms⟩ := by
  unfold mkDate
  dsimp only
  rw [show (H * 3600000 + Mi * 60000 + S * 1000 + Ms) / 86400000 = 0 from by omega]
  have hb := daysInMonth_bounds (Y + Mo / 12) (Mo % 12)
  rw [add_zero, normDay_id (Y + Mo / 12) (Mo % 12) 1 le_rfl (by omega)]
  rw [CivDate.mk.injEq]
  refine ⟨rfl, rfl, rfl, by omega, by omega, by omega, by omega⟩

lemma validDate_mk (Y Mo D H Mi S Ms : Int)
    (h0 : 0 ≤ Mo) (h1 : Mo ≤ 11) (h2 : 1 ≤ D) (h3 : D ≤ daysInMonth Y Mo)
    (h5 : 0 ≤ H) (h6 : H < 24) (h7 : 0 ≤ Mi) (h8 : Mi < 60)
    (h9 : 0 ≤ S) (h10 : S < 60) (h11 : 0 ≤ Ms) (h12 : Ms < 1000) :
    ValidDate ⟨Y, Mo, D, H, Mi, S, Ms⟩ :=
  ⟨h0, h1, h2, h3, h5, h6, h7, h8, h9, h10, h11, h12⟩

lemma leapAdd_mfy (y : Int) : leapAdd (makeFullYear y) ≤ leapAdd y := by
  unfold makeFullYear
  split
  · rw [leapAdd_eq, leapAdd_eq]
    split_ifs <;> omega
  · exact le_refl _

lemma daysInMonth_mfy_le (y m : Int) :
    daysInMonth (makeFullYear y) m ≤ daysInMonth y m := by
  have := leapAdd_mfy y
  unfold daysInMonth
  split_ifs <;> omega

lemma add_months_eq (dt : CivDate) (hv : ValidDate dt) (amount : Int) :
    ChronoBox.add dt amount TimeUnit.MONTHS =
      ⟨dt.year + (dt.month + amount) / 12, (dt.month + amount) % 12,
        min dt.day (daysInMonth (makeFullYear (dt.year + (dt.month + amount) / 12))
          ((dt.month + amount) % 12)),
        dt.hours, dt.minutes, dt.seconds, dt.ms⟩ := by
  rcases dt with ⟨Y, Mo, D, H, Mi, S, Ms⟩
  obtain ⟨a0, a1, a2, a3, a5, a6, a7, a8, a9, a10, a11, a12⟩ := hv
  dsimp only at *
  simp only [ChronoBox.add]
  rw [mkDate_day1 Y Mo H Mi S Ms a5 a6 a7 a8 a9 a10 a11 a12]
  dsimp only
  rw [show Mo / 12 = 0 from by omega, show Mo % 12 = Mo from by omega, add_zero]
  rw [mkDate_day1 Y (Mo + amount) H Mi S Ms a5 a6 a7 a8 a9 a10 a11 a12]
  dsimp only
  rw [mkDate_day0 (makeFullYear (Y + (Mo + amount) / 12)) ((Mo + amount) % 12)
    (by omega) (by omega)]
  dsimp only
  have hb := daysInMonth_bounds (makeFullYear (Y + (Mo + amount) / 12)) ((Mo + amount) % 12)
  have hble := daysInMonth_mfy_le (Y + (Mo + amount) / 12) ((Mo + amount) % 12)
  rw [mkDate_id7 (Y + (Mo + amount) / 12) ((Mo + amount) % 12)
    (min D (daysInMonth (makeFullYear (Y + (Mo + amount) / 12)) ((Mo + amount) % 12)))
    H Mi S Ms
    (validDate_mk _ _ _ _ _ _ _ (by omega) (by omega) (by omega) (by omega)
      a5 a6 a7 a8 a9 a10 a11 a12)]

lemma add_years_eq (dt : CivDate) (hv : ValidDate dt) (amount : Int) :
    ChronoBox.add dt amount TimeUnit.YEARS =
      ⟨dt.year + amount, dt.month,
        min dt.day (daysInMonth (makeFullYear (dt.year + amount)) dt.month),
        dt.hours, dt.minutes, dt.seconds, dt.ms⟩ := by
  rcases dt with ⟨Y, Mo, D, H, Mi, S, Ms⟩
  obtain ⟨a0, a1, a2, a3, a5, a6, a7, a8, a9, a10, a11, a12⟩ := hv
  dsimp only at *
  simp only [ChronoBox.add]
  rw [mkDate_day1 Y Mo H Mi S Ms a5 a6 a7 a8 a9 a10 a11 a12]
  dsimp only
  rw [show Mo / 12 = 0 from by omega, show Mo % 12 = Mo from by omega, add_zero]
  rw [mkDate_day1 (Y + amount) Mo H Mi S Ms a5 a6 a7 a8 a9 a10 a11 a12]
  dsimp only
  rw [show Mo / 12 = 0 from by omega, show Mo % 12 = Mo from by omega, add_zero]
  rw [mkDate_day0 (makeFullYear (Y + amount)) Mo (by omega) (by omega)]
  dsimp only
  have hb := daysInMonth_bounds (makeFullYear (Y + amount)) Mo
  have hble := daysInMonth_mfy_le (Y + amount) Mo
  rw [mkDate_id7 (Y + amount) Mo (min D (daysInMonth (makeFullYear (Y + amount)) Mo)) H Mi S Ms
    (validDate_mk _ _ _ _ _ _ _ (by omega) (by omega) (by omega) (by omega)
      a5 a6 a7 a8 a9 a10 a11 a12)]

/-- C3 as amended: adding an amount of Months (or Years) to any valid
instant advances the month (or year) component by exactly that amount
and sets the day-of-month to the minimum of the original day and the
last valid day of the destination month as the program computes it —
the last day of that month in the MakeFullYear-folded destination year
(1900 plus the year for destination years 0 through 99, the year itself
otherwise); the result is again a valid date, so it never rolls into
the month following the destination month. -/
theorem claim_C3 : ∀ dt : CivDate, ValidDate dt → ∀ amount : Int,
    ((ChronoBox.add dt amount TimeUnit.MONTHS).year * 12 +
        (ChronoBox.add dt amount TimeUnit.MONTHS).month =
        dt.year * 12 + dt.month + amount ∧
      (ChronoBox.add dt amount TimeUnit.MONTHS).day =
        min dt.day (daysInMonth
          (makeFullYear (ChronoBox.add dt amount TimeUnit.MONTHS).year)
          (ChronoBox.add dt amount TimeUnit.MONTHS).month) ∧
      ValidDate (ChronoBox.add dt amount TimeUnit.MONTHS)) ∧
    ((ChronoBox.add dt amount TimeUnit.YEARS).year = dt.year + amount ∧
      (ChronoBox.add dt amount TimeUnit.YEARS).month = dt.month ∧
      (ChronoBox.add dt amount TimeUnit.YEARS).day =
        min dt.day (daysInMonth
          (makeFullYear (ChronoBox.add dt amount TimeUnit.YEARS).year)
          (ChronoBox.add dt amount TimeUnit.YEARS).month) ∧
      ValidDate (ChronoBox.add dt amount TimeUnit.YEARS)) := by
  intro dt hv amount
  rw [add_months_eq dt hv amount, add_years_eq dt hv amount]
  dsimp only
  obtain ⟨a0, a1, a2, a3, a5, a6, a7, a8, a9, a10, a11, a12⟩ := hv
  have hb1 := daysInMonth_bounds (makeFullYear (dt.year + (dt.month + amount) / 12))
    ((dt.month + amount) % 12)
  have hble1 := daysInMonth_mfy_le (dt.year + (dt.month + amount) / 12)
    ((dt.month + amount) % 12)
  have hb2 := daysInMonth_bounds (makeFullYear (dt.year + amount)) dt.month
  have hble2 := daysInMonth_mfy_le (dt.year + amount) dt.month
  exact ⟨⟨by omega, rfl,
      validDate_mk _ _ _ _ _ _ _ (by omega) (by omega) (by omega) (by omega)
        a5 a6 a7 a8 a9 a10 a11 a12⟩,
    ⟨rfl, rfl, rfl,
      validDate_mk _ _ _ _ _ _ _ (by omega) (by omega) (by omega) (by omega)
        a5 a6 a7 a8 a9 a10 a11 a12⟩⟩

/-- C3, the original claim refuted at a concrete input: adding minus
eleven months to January 31 of year 1 lands in February of year 0; the
program clamps with new Date(0, 2, 0), whose year argument MakeFullYear
folds to 1900, a non-leap year, giving day 28, while the last valid day
of February of year 0 itself is 29, so the claimed day equation
min(31, 29) = 29 fails on the program. -/
theorem claim_C3_counterexample :
    ValidDate ⟨1, 0, 31, 0, 0, 0, 0⟩ ∧
    ChronoBox.add ⟨1, 0, 31, 0, 0, 0, 0⟩ (-11) TimeUnit.MONTHS =
      ⟨0, 1, 28, 0, 0, 0, 0⟩ ∧
    min (31 : Int) (daysInMonth 0 1) = 29 :=
  ⟨by decide, by decide, by decide⟩

theorem claim_C3_witness :
    ValidDate ⟨2024, 0, 31, 0, 0, 0, 0⟩ ∧
    (ChronoBox.add ⟨2024, 0, 31, 0, 0, 0, 0⟩ 1 TimeUnit.MONTHS).day =
      min (31 : Int) (daysInMonth (makeFullYear 2024) 1) := by
  refine ⟨by decide, ?_⟩
  have h := (claim_C3 ⟨2024, 0, 31, 0, 0, 0, 0⟩ (by decide) 1).1.2.1
  exact h

/-- C6: subtract is add with the amount negated for every amount and
unit, and for every valid instant and positive integer count, adding
then subtracting the same count of any fixed-duration unit (Day, Hour,
Minute, Second, Millisecond, Week) returns the original instant
exactly. -/
theorem claim_C6 :
    (∀ (dt : CivDate) (amount : Int) (u : TimeUnit),
      ChronoBox.subtract dt amount u = ChronoBox.add dt (-amount) u) ∧
    (∀ dt : CivDate, ValidDate dt → ∀ n : Int, 0 < n → ∀ u : TimeUnit,
      u ≠ TimeUnit.MONTHS → u ≠ TimeUnit.YEARS →
      ChronoBox.subtract (ChronoBox.add dt n u) n u = dt) := by
  constructor
  · intro dt amount u
    rfl
  · intro dt hv n hn u hu1 hu2
    have v1 := add_valid dt n u
    have e1 := getTime_add_unit dt hv n u hu1 hu2
    have e2 := getTime_add_unit (ChronoBox.add dt n u) v1 (-n) u hu1 hu2
    have v2 : ValidDate (ChronoBox.subtract (ChronoBox.add dt n u) n u) :=
      add_valid _ _ _
    apply getTime_inj _ _ v2 hv
    show getTime (ChronoBox.add (ChronoBox.add dt n u) (-n) u) = getTime dt
    rw [e2, e1]
    ring

theorem claim_C6_witness :
    ValidDate ⟨2024, 0, 31, 13, 45, 6, 7⟩ ∧ (0 : Int) < 5 ∧
    TimeUnit.DAYS ≠ TimeUnit.MONTHS ∧ TimeUnit.DAYS ≠ TimeUnit.YEARS ∧
    ChronoBox.subtract (ChronoBox.add ⟨2024, 0, 31, 13, 45, 6, 7⟩ 5 TimeUnit.DAYS)
      5 TimeUnit.DAYS = ⟨2024, 0, 31, 13, 45, 6, 7⟩ :=
  ⟨by decide, by decide, by decide, by decide,
    claim_C6.2 ⟨2024, 0, 31, 13, 45, 6, 7⟩ (by decide) 5 (by decide)
      TimeUnit.DAYS (by decide) (by decide)⟩

/-- C10 as amended: adding zero of any fixed-duration unit is the
identity on every valid instant, and adding zero Months or Years is the
identity whenever the day-of-month does not exceed the last day of the
month in the MakeFullYear-folded year — every valid date except
February 29 of year 0, where the program clamps the day against
February of 1900. -/
theorem claim_C10 : ∀ dt : CivDate, ValidDate dt →
    (∀ u : TimeUnit, u ≠ TimeUnit.MONTHS → u ≠ TimeUnit.YEARS →
      ChronoBox.add dt 0 u = dt) ∧
    (dt.day ≤ daysInMonth (makeFullYear dt.year) dt.month →
      ∀ u : TimeUnit, ChronoBox.add dt 0 u = dt) := by
  intro dt hv
  have hfixed : ∀ u : TimeUnit, u ≠ TimeUnit.MONTHS → u ≠ TimeUnit.YEARS →
      ChronoBox.add dt 0 u = dt := by
    intro u hu1 hu2
    apply getTime_inj _ _ (add_valid dt 0 u) hv
    rw [getTime_add_unit dt hv 0 u hu1 hu2]
    ring
  refine ⟨hfixed, ?_⟩
  intro hday u
  have hvd := hv
  obtain ⟨a0, a1, a2, a3, a5, a6, a7, a8, a9, a10, a11, a12⟩ := hvd
  cases u
  case MONTHS =>
    rw [add_months_eq dt hv 0, add_zero]
    rw [show dt.month / 12 = 0 from by omega, show dt.month % 12 = dt.month from by omega,
      add_zero]
    rw [show min dt.day (daysInMonth (makeFullYear dt.year) dt.month) = dt.day from by omega]
  case YEARS =>
    rw [add_years_eq dt hv 0, add_zero]
    rw [show min dt.day (daysInMonth (makeFullYear dt.year) dt.month) = dt.day from by omega]
  all_goals exact hfixed _ (by decide) (by decide)

/-- C10, the original claim refuted at a concrete input: February 29 of
year 0 is a valid date (year 0 is leap), yet adding zero Months clamps
its day through new Date(0, 2, 0) — MakeFullYear folds the year to the
non-leap 1900 — so the program returns February 28 of year 0, not the
original instant. -/
theorem claim_C10_counterexample :
    ValidDate ⟨0, 1, 29, 0, 0, 0, 0⟩ ∧
    ChronoBox.add ⟨0, 1, 29, 0, 0, 0, 0⟩ 0 TimeUnit.MONTHS ≠
      ⟨0, 1, 29, 0, 0, 0, 0⟩ :=
  ⟨by decide, by decide⟩

theorem claim_C10_witness :
    ValidDate ⟨2024, 1, 29, 23, 59, 59, 999⟩ ∧
    (29 : Int) ≤ daysInMonth (makeFullYear 2024) 1 ∧
    ChronoBox.add ⟨2024, 1, 29, 23, 59, 59, 999⟩ 0 TimeUnit.MONTHS =
      ⟨2024, 1, 29, 23, 59, 59, 999⟩ :=
  ⟨by decide, by decide,
    (claim_C10 ⟨2024, 1, 29, 23, 59, 59, 999⟩ (by decide)).2 (by decide) TimeUnit.MONTHS⟩

/-- C7: the Month difference is the calendar-month count, the year
difference times twelve plus the month difference, with day-of-month
and time of day ignored, the first argument being the minuend; in
particular the difference from 2023-11-15 to 2024-01-15 is minus two. -/
theorem claim_C7 :
    (∀ a b : CivDate, ChronoBox.diff a b TimeUnit.MONTHS =
      (((a.year - b.year) * 12 + (a.month - b.month) : Int) : ℚ)) ∧
    ChronoBox.diff ⟨2023, 10, 15, 0, 0, 0, 0⟩ ⟨2024, 0, 15, 0, 0, 0, 0⟩
      TimeUnit.MONTHS = (-2 : ℚ) := by
  constructor
  · intro a b
    rfl
  · decide

/-- C8: the four unit-consuming operations fail with the unsupported
unit error exactly when the runtime unit argument is outside the eight
recognized values (null included), and in that case they return the
error alone, no partial result. -/
theorem claim_C8 : ∀ (dt b : CivDate) (amount : Int) (u : Option String),
    (ChronoBox.addRaw dt amount u = .error "Unsupported time unit" ↔
      isValidTimeUnit u = false) ∧
    (ChronoBox.diffRaw dt b u = .error "Unsupported time unit" ↔
      isValidTimeUnit u = false) ∧
    (ChronoBox.startOfRaw dt u = .error "Unsupported time unit" ↔
      isValidTimeUnit u = false) ∧
    (ChronoBox.endOfRaw dt u = .error "Unsupported time unit" ↔
      isValidTimeUnit u = false) := by
  intro dt b amount u
  unfold ChronoBox.addRaw ChronoBox.diffRaw ChronoBox.startOfRaw ChronoBox.endOfRaw
    isValidTimeUnit
  cases h : parseTimeUnit u <;> simp

lemma yearLen_bounds (y : Int) : 365 ≤ yearLen y ∧ yearLen y ≤ 366 := by
  have := leapAdd_bounds y
  unfold yearLen
  omega

lemma cfdYearLoop_id (f : Nat) (y z : Int) (h1 : 0 ≤ z) (h2 : z < yearLen y) :
    cfdYearLoop f y z = (y, z) := by
  cases f with
  | zero => rfl
  | succ f =>
    rw [cfdYearLoop]
    rw [if_neg (by omega), if_neg (by omega)]

lemma cfdYearLoop_spec (f : Nat) : ∀ y z : Int, z.natAbs < f →
    0 ≤ (cfdYearLoop f y z).2 ∧
    (cfdYearLoop f y z).2 < yearLen (cfdYearLoop f y z).1 ∧
    epochDaysToYear (cfdYearLoop f y z).1 + (cfdYearLoop f y z).2 =
      epochDaysToYear y + z := by
  induction f with
  | zero =>
    intro y z h
    exact absurd h (by omega)
  | succ f ih =>
    intro y z h
    by_cases h1 : z < 0
    · have hyl := yearLen_bounds (y - 1)
      have hstep := epochDaysToYear_step (y - 1)
      rw [show y - 1 + 1 = y from by ring] at hstep
      have hun : cfdYearLoop (f + 1) y z = cfdYearLoop f (y - 1) (z + yearLen (y - 1)) := by
        rw [cfdYearLoop]
        rw [if_pos h1]
      by_cases h2 : z + yearLen (y - 1) < 0
      · have hrec := ih (y - 1) (z + yearLen (y - 1)) (by omega)
        rw [hun]
        exact ⟨hrec.1, hrec.2.1, by omega⟩
      · rw [hun, cfdYearLoop_id f (y - 1) (z + yearLen (y - 1)) (by omega) (by omega)]
        dsimp only
        exact ⟨by omega, by omega, by omega⟩
    · by_cases h2 : yearLen y ≤ z
      · have hyl := yearLen_bounds y
        have hstep := epochDaysToYear_step y
        have hrec := ih (y + 1) (z - yearLen y) (by omega)
        have hun : cfdYearLoop (f + 1) y z = cfdYearLoop f (y + 1) (z - yearLen y) := by
          rw [cfdYearLoop]
          rw [if_neg h1, if_pos h2]
        rw [hun]
        exact ⟨hrec.1, hrec.2.1, by omega⟩
      · have hun : cfdYearLoop (f + 1) y z = (y, z) := by
          rw [cfdYearLoop]
          rw [if_neg h1, if_neg h2]
        rw [hun]
        dsimp only
        exact ⟨by omega, by omega, rfl⟩

lemma monthDays_11 (y : Int) : monthDays y 11 + daysInMonth y 11 = yearLen y := by
  norm_num [monthDays, daysInMonth, yearLen]
  omega

lemma cfdMonthLoop_spec (f : Nat) : ∀ (y m r : Int), 0 ≤ m → m ≤ 11 → 0 ≤ r →
    monthDays y m + r < yearLen y → (11 - m).toNat < f →
    0 ≤ (cfdMonthLoop f y m r).1 ∧ (cfdMonthLoop f y m r).1 ≤ 11 ∧
    0 ≤ (cfdMonthLoop f y m r).2 ∧
    (cfdMonthLoop f y m r).2 < daysInMonth y (cfdMonthLoop f y m r).1 ∧
    monthDays y (cfdMonthLoop f y m r).1 + (cfdMonthLoop f y m r).2 =
      monthDays y m + r := by
  induction f with
  | zero =>
    intro y m r h0 h1 h2 h3 h4
    exact absurd h4 (by omega)
  | succ f ih =>
    intro y m r h0 h1 h2 h3 h4
    by_cases hc : daysInMonth y m ≤ r
    · have hm10 : m ≤ 10 := by
        by_contra hx
        have hm11 : m = 11 := by omega
        subst hm11
        have := monthDays_11 y
        omega
      have hstep := monthDays_step y m h0 hm10
      have hrec := ih y (m + 1) (r - daysInMonth y m) (by omega) (by omega) (by omega)
        (by omega) (by omega)
      have hun : cfdMonthLoop (f + 1) y m r =
          cfdMonthLoop f y (m + 1) (r - daysInMonth y m) := by
        rw [cfdMonthLoop]
        rw [if_pos hc]
      rw [hun]
      exact ⟨hrec.1, hrec.2.1, hrec.2.2.1, hrec.2.2.2.1, by omega⟩
    · have hun : cfdMonthLoop (f + 1) y m r = (m, r) := by
        rw [cfdMonthLoop]
        rw [if_neg hc]
      rw [hun]
      dsimp only
      exact ⟨h0, h1, h2, by omega, rfl⟩

lemma epochDaysToYear_1970 : epochDaysToYear 1970 = 0 := by decide

lemma monthDays_zero (y : Int) : monthDays y 0 = 0 := by norm_num [monthDays]

lemma civilFromDays_spec (z : Int) :
    0 ≤ (civilFromDays z).2.1 ∧ (civilFromDays z).2.1 ≤ 11 ∧
    1 ≤ (civilFromDays z).2.2 ∧
    (civilFromDays z).2.2 ≤ daysInMonth (civilFromDays z).1 (civilFromDays z).2.1 ∧
    rawDays (civilFromDays z).1 (civilFromDays z).2.1 (civilFromDays z).2.2 = z := by
  unfold civilFromDays
  dsimp only
  have hy := cfdYearLoop_spec (z.natAbs + 1) 1970 z (by omega)
  have hmz := monthDays_zero (cfdYearLoop (z.natAbs + 1) 1970 z).1
  have hm := cfdMonthLoop_spec 12 (cfdYearLoop (z.natAbs + 1) 1970 z).1 0
    (cfdYearLoop (z.natAbs + 1) 1970 z).2 (by omega) (by omega) hy.1
    (by omega) (by norm_num)
  have h70 := epochDaysToYear_1970
  refine ⟨hm.1, hm.2.1, by omega, by omega, ?_⟩
  unfold rawDays
  omega

lemma fieldsToMs_utcCivil (t : Int) : fieldsToMs (utcCivil t) = t - t % 1000 := by
  unfold utcCivil fieldsToMs
  dsimp only
  rw [(civilFromDays_spec (t / 86400000)).2.2.2.2]
  omega

lemma offset_calc (t k : Int) :
    ((fieldsToMs (utcCivil t) - fieldsToMs (utcCivil (t - 60000 * k)) : Int) : ℚ) / 60000 =
      (k : ℚ) := by
  rw [fieldsToMs_utcCivil, fieldsToMs_utcCivil]
  rw [show (t - t % 1000) - (t - 60000 * k - (t - 60000 * k) % 1000) = 60000 * k from by omega]
  push_cast
  field_simp

lemma getTZOM_shift (off : Int → Int) (t : Int) (tz : String) :
    ChronoBox.getTimezoneOffsetMinutes (fun _ u => utcCivil (u - 60000 * off u)) t tz =
      (off t : ℚ) := by
  unfold ChronoBox.getTimezoneOffsetMinutes
  exact offset_calc t (off t)

/-- C9: the offset resolver returns exactly the difference of the two
UTC reinterpretations divided by 60000, and for a zone whose rendering
is the UTC rendering of the instant shifted by a whole number of
minutes (the only offsets the Offset data model admits), the
reinterpretation difference is an exact multiple of 60000 and the
result is that whole number of minutes. -/
theorem claim_C9 : ∀ (o : CivilOracle) (t : Int) (tz : String),
    (ChronoBox.getTimezoneOffsetMinutes o t tz =
      ((fieldsToMs (utcCivil t) - fieldsToMs (o tz t) : Int) : ℚ) / 60000) ∧
    (∀ off : Int → Int, (∀ u, o tz u = utcCivil (u - 60000 * off u)) →
      ChronoBox.getTimezoneOffsetMinutes o t tz = (off t : ℚ) ∧
      (60000 : Int) ∣ (fieldsToMs (utcCivil t) - fieldsToMs (o tz t))) := by
  intro o t tz
  refine ⟨rfl, ?_⟩
  intro off h
  constructor
  · unfold ChronoBox.getTimezoneOffsetMinutes
    rw [h t]
    exact offset_calc t (off t)
  · rw [h t, fieldsToMs_utcCivil, fieldsToMs_utcCivil]
    rw [show (t - t % 1000) - (t - 60000 * off t - (t - 60000 * off t) % 1000) =
      60000 * off t from by omega]
    exact Dvd.intro (off t) rfl

theorem claim_C9_witness :
    ChronoBox.getTimezoneOffsetMinutes (fun _ u => utcCivil (u - 60000 * 300))
      1704067200123 "America/New_York" = (300 : ℚ) ∧
    (60000 : Int) ∣ (fieldsToMs (utcCivil 1704067200123) -
      fieldsToMs ((fun (_ : String) (u : Int) => utcCivil (u - 60000 * 300))
        "America/New_York" 1704067200123)) :=
  (claim_C9 (fun _ u => utcCivil (u - 60000 * 300)) 1704067200123
    "America/New_York").2 (fun _ => 300) (fun _ => rfl)

/-- C1 as amended: for every oracle, instant and zone, the DST detector
samples its anchors at January 1 and July 1 of the MakeFullYear-folded
calendar year of the instant (1900 plus the year for years 0 through
99, the year itself otherwise); it returns false whenever the two
anchor offsets agree, and otherwise returns true exactly when the
offset resolved for the instant equals the maximum of the two anchor
offsets. -/
theorem claim_C1 : ∀ (o : CivilOracle) (dt : CivDate) (tz : String),
    (ChronoBox.getTimezoneOffsetMinutes o (getTime (mkDate (makeFullYear dt.year) 0 1 0 0 0 0)) tz =
        ChronoBox.getTimezoneOffsetMinutes o (getTime (mkDate (makeFullYear dt.year) 6 1 0 0 0 0)) tz →
      ChronoBox.isInDST o dt tz = false) ∧
    (ChronoBox.getTimezoneOffsetMinutes o (getTime (mkDate (makeFullYear dt.year) 0 1 0 0 0 0)) tz ≠
        ChronoBox.getTimezoneOffsetMinutes o (getTime (mkDate (makeFullYear dt.year) 6 1 0 0 0 0)) tz →
      (ChronoBox.isInDST o dt tz = true ↔
        ChronoBox.getTimezoneOffsetMinutes o (getTime dt) tz =
          max (ChronoBox.getTimezoneOffsetMinutes o (getTime (mkDate (makeFullYear dt.year) 0 1 0 0 0 0)) tz)
            (ChronoBox.getTimezoneOffsetMinutes o (getTime (mkDate (makeFullYear dt.year) 6 1 0 0 0 0)) tz))) := by
  intro o dt tz
  constructor
  · intro h
    unfold ChronoBox.isInDST
    rw [if_pos h]
  · intro h
    unfold ChronoBox.isInDST
    rw [if_neg h]
    simp only [decide_eq_true_eq]

theorem claim_C1_witness :
    (ChronoBox.getTimezoneOffsetMinutes (fun _ u => utcCivil u)
        (getTime (mkDate (makeFullYear 1970) 0 1 0 0 0 0)) "UTC" =
      ChronoBox.getTimezoneOffsetMinutes (fun _ u => utcCivil u)
        (getTime (mkDate (makeFullYear 1970) 6 1 0 0 0 0)) "UTC") ∧
    ChronoBox.isInDST (fun _ u => utcCivil u) ⟨1970, 5, 15, 0, 0, 0, 0⟩ "UTC" = false := by
  have h : ChronoBox.getTimezoneOffsetMinutes (fun _ u => utcCivil u)
        (getTime (mkDate (makeFullYear 1970) 0 1 0 0 0 0)) "UTC" =
      ChronoBox.getTimezoneOffsetMinutes (fun _ u => utcCivil u)
        (getTime (mkDate (makeFullYear 1970) 6 1 0 0 0 0)) "UTC" := by
    simp [ChronoBox.getTimezoneOffsetMinutes]
  exact ⟨h, (claim_C1 (fun _ u => utcCivil u) ⟨1970, 5, 15, 0, 0, 0, 0⟩ "UTC").1 h⟩

/-- A zone whose offset is 60 minutes at exactly two instants — March 1
of year 0 and January 1 of year 1900 — and 0 everywhere else. -/
def cOff : Int → Int := fun t =>
  if t = getTime (mkDate 0 2 1 0 0 0 0) ∨ t = getTime (mkDate 1900 0 1 0 0 0 0)
  then 60 else 0

/-- C1, the original claim refuted at a concrete input: for March 1 of
year 0 in the cOff zone, the offsets resolved at January 1 and July 1
of the calendar year of the instant (year 0) are equal, so the claim
demands false; but the program samples its anchors in the
MakeFullYear-folded year 1900, where they differ, and the offset of the
instant equals their maximum, so isInDST returns true. -/
theorem claim_C1_counterexample :
    (ChronoBox.getTimezoneOffsetMinutes (fun _ u => utcCivil (u - 60000 * cOff u))
        (getTime (mkDate 0 0 1 0 0 0 0)) "America/New_York" =
      ChronoBox.getTimezoneOffsetMinutes (fun _ u => utcCivil (u - 60000 * cOff u))
        (getTime (mkDate 0 6 1 0 0 0 0)) "America/New_York") ∧
    ChronoBox.isInDST (fun _ u => utcCivil (u - 60000 * cOff u))
      ⟨0, 2, 1, 0, 0, 0, 0⟩ "America/New_York" = true := by
  constructor
  · rw [getTZOM_shift cOff, getTZOM_shift cOff]
    rw [show cOff (getTime (mkDate 0 0 1 0 0 0 0)) = 0 from by decide,
      show cOff (getTime (mkDate 0 6 1 0 0 0 0)) = 0 from by decide]
  · unfold ChronoBox.isInDST
    dsimp only
    simp only [getTZOM_shift]
    rw [show cOff (getTime (mkDate (makeFullYear 0) 0 1 0 0 0 0)) = 60 from by decide,
      show cOff (getTime (mkDate (makeFullYear 0) 6 1 0 0 0 0)) = 0 from by decide,
      show cOff (getTime ⟨0, 2, 1, 0, 0, 0, 0⟩) = 60 from by decide]
    rw [if_neg (show ¬ ((60 : Int) : ℚ) = ((0 : Int) : ℚ) from by norm_num)]
    rw [max_eq_left (show ((0 : Int) : ℚ) ≤ ((60 : Int) : ℚ) from by norm_num)]
    simp

lemma fETLoop_some (o : CivilOracle) (tz : String) (base : ℚ) (f : Nat) :
    ∀ s e : Int, (e - s).toNat ≤ f →
    ∃ r, ChronoBox.fETLoop o tz base f s e = some r := by
  induction f with
  | zero =>
    intro s e h
    rw [ChronoBox.fETLoop]
    rw [if_neg (by omega)]
    exact ⟨e, rfl⟩
  | succ f ih =>
    intro s e h
    by_cases hgap : 60000 < e - s
    · rw [ChronoBox.fETLoop]
      rw [if_pos hgap]
      dsimp only
      by_cases hoff : ChronoBox.getTimezoneOffsetMinutes o ((s + e) / 2) tz = base
      · rw [if_pos hoff]
        exact ih ((s + e) / 2) e (by omega)
      · rw [if_neg hoff]
        exact ih s ((s + e) / 2) (by omega)
    · rw [ChronoBox.fETLoop]
      rw [if_neg hgap]
      exact ⟨e, rfl⟩

lemma fETLoop_correct (o : CivilOracle) (tz : String) (T : Int) (a b : ℚ)
    (hstep : ∀ u : Int, ChronoBox.getTimezoneOffsetMinutes o u tz = if u < T then a else b)
    (hab : a ≠ b) (f : Nat) :
    ∀ s e : Int, (e - s).toNat ≤ f → s < T → T ≤ e →
    ∀ r : Int, ChronoBox.fETLoop o tz a f s e = some r →
    T ≤ r ∧ r - T ≤ 60000 ∧
    ∃ s2 : Int, s2 < T ∧ r - s2 ≤ 60000 ∧
      ChronoBox.getTimezoneOffsetMinutes o s2 tz = a := by
  induction f with
  | zero =>
    intro s e hf hs he r hr
    exfalso
    omega
  | succ f ih =>
    intro s e hf hs he r hr
    by_cases hgap : 60000 < e - s
    · rw [ChronoBox.fETLoop] at hr
      rw [if_pos hgap] at hr
      dsimp only at hr
      by_cases hoff : ChronoBox.getTimezoneOffsetMinutes o ((s + e) / 2) tz = a
      · rw [if_pos hoff] at hr
        have hmid : (s + e) / 2 < T := by
          by_contra hx
          rw [hstep ((s + e) / 2), if_neg (by omega)] at hoff
          exact hab hoff.symm
        exact ih ((s + e) / 2) e (by omega) hmid he r hr
      · rw [if_neg hoff] at hr
        have hmid : T ≤ (s + e) / 2 := by
          by_contra hx
          rw [hstep ((s + e) / 2), if_pos (by omega)] at hoff
          exact hoff rfl
        exact ih s ((s + e) / 2) (by omega) hs hmid r hr
    · rw [ChronoBox.fETLoop] at hr
      rw [if_neg hgap] at hr
      have hre : r = e := by
        injection hr with h
        omega
      subst hre
      exact ⟨he, by omega, s, hs, by omega, by rw [hstep s, if_pos hs]⟩

/-- C4: when the bounding instants straddle exactly one offset change
of a step-offset zone, findExactTransitionHour returns an instant no
more than 60000 milliseconds at or above the true transition instant,
and it is the upper bound of a bracketing interval of width at most one
minute whose lower bound still resolves to the baseline offset. -/
theorem claim_C4 : ∀ (o : CivilOracle) (tz : String) (bef aft T : Int) (a b : ℚ),
    (∀ u : Int, ChronoBox.getTimezoneOffsetMinutes o u tz = if u < T then a else b) →
    a ≠ b → bef < T → T ≤ aft →
    T ≤ ChronoBox.findExactTransitionHour o bef aft tz ∧
    ChronoBox.findExactTransitionHour o bef aft tz - T ≤ 60000 ∧
    ∃ s2 : Int, s2 < T ∧ ChronoBox.findExactTransitionHour o bef aft tz - s2 ≤ 60000 ∧
      ChronoBox.getTimezoneOffsetMinutes o s2 tz = a := by
  intro o tz bef aft T a b hstep hab h1 h2
  have hbase : ChronoBox.getTimezoneOffsetMinutes o bef tz = a := by
    rw [hstep bef, if_pos h1]
  obtain ⟨r, hr⟩ := fETLoop_some o tz a (aft - bef).toNat bef aft le_rfl
  have hcor := fETLoop_correct o tz T a b hstep hab (aft - bef).toNat
    bef aft le_rfl h1 h2 r hr
  unfold ChronoBox.findExactTransitionHour
  rw [hbase]
  dsimp only
  rw [hr]
  simpa using hcor

/-- C5: the binary-search loop terminates for all inputs: with fuel
equal to the width of the interval the loop always delivers a result,
and whenever the loop condition holds each of the two possible next
intervals is strictly smaller, at most about half the current one. -/
theorem claim_C5 : ∀ (o : CivilOracle) (tz : String) (base : ℚ) (s e : Int),
    (∃ r, ChronoBox.fETLoop o tz base (e - s).toNat s e = some r) ∧
    (60000 < e - s →
      e - (s + e) / 2 < e - s ∧ (s + e) / 2 - s < e - s ∧
      e - (s + e) / 2 ≤ (e - s + 1) / 2 ∧ (s + e) / 2 - s ≤ (e - s + 1) / 2) := by
  intro o tz base s e
  refine ⟨fETLoop_some o tz base (e - s).toNat s e le_rfl, ?_⟩
  intro h
  refine ⟨by omega, by omega, by omega, by omega⟩

/-- A synthetic zone whose offset steps from lo to hi minutes at the
instant T, rendered through the UTC civil renderer. -/
def stepOff (T lo hi : Int) : Int → Int := fun u => if u < T then lo else hi

/-- The civil-time oracle of the synthetic step zone. -/
def stepOracle (T lo hi : Int) : CivilOracle :=
  fun _ u => utcCivil (u - 60000 * stepOff T lo hi u)

lemma stepOracle_offset (T lo hi : Int) (u : Int) (tz : String) :
    ChronoBox.getTimezoneOffsetMinutes (stepOracle T lo hi) u tz =
      if u < T then (lo : ℚ) else (hi : ℚ) := by
  unfold stepOracle
  rw [getTZOM_shift (stepOff T lo hi) u tz]
  unfold stepOff
  split <;> norm_num

theorem claim_C4_witness :
    (5000000 : Int) ≤ ChronoBox.findExactTransitionHour (stepOracle 5000000 0 60)
      0 86400000 "America/New_York" ∧
    ChronoBox.findExactTransitionHour (stepOracle 5000000 0 60)
      0 86400000 "America/New_York" - 5000000 ≤ 60000 := by
  have hshape : ∀ u : Int,
      ChronoBox.getTimezoneOffsetMinutes (stepOracle 5000000 0 60) u "America/New_York" =
        if u < 5000000 then (0 : ℚ) else 60 := fun u =>
    stepOracle_offset 5000000 0 60 u "America/New_York"
  have h := claim_C4 (stepOracle 5000000 0 60) "America/New_York" 0 86400000 5000000
    (0 : ℚ) 60 hshape (by norm_num) (by norm_num) (by norm_num)
  exact ⟨h.1, h.2.1⟩

theorem claim_C5_witness :
    (∃ r, ChronoBox.fETLoop (fun _ u => utcCivil u) "UTC" 0
      ((86400000 : Int) - 0).toNat 0 86400000 = some r) ∧
    (86400000 : Int) - (0 + 86400000) / 2 < 86400000 - 0 := by
  refine ⟨(claim_C5 (fun _ u => utcCivil u) "UTC" 0 0 86400000).1, ?_⟩
  exact ((claim_C5 (fun _ u => utcCivil u) "UTC" 0 0 86400000).2 (by norm_num)).1

/-- Integer mirror of the binary-search loop for a whole-minute step
zone: identical control flow with offsets compared as integers, used to
evaluate the engine on synthetic zones. -/
def fETLoopInt (off : Int → Int) (base : Int) : Nat → Int → Int → Option Int
  | 0, s, e => if 60000 < e - s then none else some e
  | f + 1, s, e =>
    if 60000 < e - s then
      let mid := (s + e) / 2
      if off mid = base then fETLoopInt off base f mid e
      else fETLoopInt off base f s mid
    else some e

/-- Integer mirror of findExactTransitionHour. -/
def fETHInt (off : Int → Int) (s e : Int) : Int :=
  (fETLoopInt off (off s) (e - s).toNat s e).getD e

/-- Integer mirror of the daily scan loop of findDSTTransitions. -/
def findDSTAuxInt (off : Int → Int) (year : Int) :
    Nat → Int → Int → Option Int → Option Int → Nat →
    Option Int × Option Int × Nat
  | 0, _, _, s, e, cnt => (s, e, cnt)
  | f + 1, day, prevOff, s, e, cnt =>
    let currentDate := mkDate (makeFullYear year) 0 day 0 0 0 0
    if year < currentDate.year then (s, e, cnt)
    else
      let currentOffset := off (getTime currentDate)
      if currentOffset = prevOff then
        findDSTAuxInt off year f (day + 1) prevOff s e (cnt + 1)
      else
        let transitionDate := fETHInt off
          (getTime (mkDate (makeFullYear year) 0 (day - 1) 0 0 0 0)) (getTime currentDate)
        let s2 := if s.isNone then some transitionDate else s
        let e2 := if s.isNone then e else if e.isNone then some transitionDate else e
        findDSTAuxInt off year f (day + 1) currentOffset s2 e2 (cnt + 1)

/-- Integer mirror of findDSTTransitions. -/
def findDSTTransitionsInt (off : Int → Int) (year : Int) :
    Option Int × Option Int × Nat :=
  let janOff := off (getTime (mkDate (makeFullYear year) 0 1 0 0 0 0))
  let julyOff := off (getTime (mkDate (makeFullYear year) 6 1 0 0 0 0))
  if janOff = julyOff then (none, none, 0)
  else findDSTAuxInt off year 365 2 janOff none none 0

lemma fETLoopInt_eq (off : Int → Int) (tz : String) (base : Int) (f : Nat) :
    ∀ s e : Int,
    ChronoBox.fETLoop (fun _ u => utcCivil (u - 60000 * off u)) tz (base : ℚ) f s e =
      fETLoopInt off base f s e := by
  induction f with
  | zero => intro s e; rfl
  | succ f ih =>
    intro s e
    rw [ChronoBox.fETLoop, fETLoopInt]
    by_cases hgap : 60000 < e - s
    · rw [if_pos hgap, if_pos hgap]
      dsimp only
      have hiff : (ChronoBox.getTimezoneOffsetMinutes (fun _ u => utcCivil (u - 60000 * off u))
          ((s + e) / 2) tz = (base : ℚ)) ↔ off ((s + e) / 2) = base := by
        rw [getTZOM_shift]
        exact Int.cast_inj
      by_cases hoff : off ((s + e) / 2) = base
      · rw [if_pos (hiff.mpr hoff), if_pos hoff]
        exact ih ((s + e) / 2) e
      · rw [if_neg (fun hx => hoff (hiff.mp hx)), if_neg hoff]
        exact ih s ((s + e) / 2)
    · rw [if_neg hgap, if_neg hgap]

lemma fETHInt_eq (off : Int → Int) (tz : String) (s e : Int) :
    ChronoBox.findExactTransitionHour (fun _ u => utcCivil (u - 60000 * off u)) s e tz =
      fETHInt off s e := by
  unfold ChronoBox.findExactTransitionHour fETHInt
  rw [getTZOM_shift]
  dsimp only
  rw [fETLoopInt_eq off tz (off s) ((e - s).toNat) s e]

lemma findDSTAuxInt_eq (off : Int → Int) (tz : String) (year : Int) (f : Nat) :
    ∀ (day prev : Int) (s e : Option Int) (cnt : Nat),
    ChronoBox.findDSTAux (fun _ u => utcCivil (u - 60000 * off u)) tz year f day
      (prev : ℚ) s e cnt = findDSTAuxInt off year f day prev s e cnt := by
  induction f with
  | zero => intro day prev s e cnt; rfl
  | succ f ih =>
    intro day prev s e cnt
    rw [ChronoBox.findDSTAux, findDSTAuxInt]
    dsimp only
    by_cases hbreak : year < (mkDate (makeFullYear year) 0 day 0 0 0 0).year
    · rw [if_pos hbreak, if_pos hbreak]
    · rw [if_neg hbreak, if_neg hbreak]
      have hiff : (ChronoBox.getTimezoneOffsetMinutes (fun _ u => utcCivil (u - 60000 * off u))
          (getTime (mkDate (makeFullYear year) 0 day 0 0 0 0)) tz = (prev : ℚ)) ↔
          off (getTime (mkDate (makeFullYear year) 0 day 0 0 0 0)) = prev := by
        rw [getTZOM_shift]
        exact Int.cast_inj
      by_cases hoff : off (getTime (mkDate (makeFullYear year) 0 day 0 0 0 0)) = prev
      · rw [if_pos (hiff.mpr hoff), if_pos hoff]
        exact ih (day + 1) prev s e (cnt + 1)
      · rw [if_neg (fun hx => hoff (hiff.mp hx)), if_neg hoff]
        rw [getTZOM_shift, fETHInt_eq off tz]
        exact ih (day + 1) (off (getTime (mkDate (makeFullYear year) 0 day 0 0 0 0))) _ _ (cnt + 1)

lemma findDSTTransitionsInt_eq (off : Int → Int) (tz : String) (year : Int) :
    ChronoBox.findDSTTransitions (fun _ u => utcCivil (u - 60000 * off u)) year tz =
      findDSTTransitionsInt off year := by
  unfold ChronoBox.findDSTTransitions findDSTTransitionsInt
  dsimp only
  have hiff : (ChronoBox.getTimezoneOffsetMinutes (fun _ u => utcCivil (u - 60000 * off u))
      (getTime (mkDate (makeFullYear year) 0 1 0 0 0 0)) tz =
      ChronoBox.getTimezoneOffsetMinutes (fun _ u => utcCivil (u - 60000 * off u))
      (getTime (mkDate (makeFullYear year) 6 1 0 0 0 0)) tz) ↔
      off (getTime (mkDate (makeFullYear year) 0 1 0 0 0 0)) = off (getTime (mkDate (makeFullYear year) 6 1 0 0 0 0)) := by
    rw [getTZOM_shift, getTZOM_shift]
    exact Int.cast_inj
  by_cases hoff : off (getTime (mkDate (makeFullYear year) 0 1 0 0 0 0)) =
      off (getTime (mkDate (makeFullYear year) 6 1 0 0 0 0))
  · rw [if_pos (hiff.mpr hoff), if_pos hoff]
  · rw [if_neg (fun hx => hoff (hiff.mp hx)), if_neg hoff]
    rw [getTZOM_shift]
    exact findDSTAuxInt_eq off tz year 365 2 _ none none 0

/-- A synthetic zone for the year 1970: offset 300 minutes until noon
of day 90 (UTC), 240 minutes until noon of day 299, then 300 again, so
the January and July anchor offsets differ and the year holds exactly
two offset transitions. -/
def dstOff : Int → Int := fun t =>
  if t < 7732800000 then 300 else if t < 25876800000 then 240 else 300

set_option maxRecDepth 10000 in
/-- C2, evaluated at the failing input: scanning 1970 over the
two-transition step zone records both transitions (their instants are
the two detected step instants, found at the day-91 and day-301 daily
samples) and nevertheless takes 364 daily offset samples, one for every
day from day 2 through day 365 — the coarse scan never stops after the
second transition is found, although the unused foundTransitions
counter of the source shows that stopping was intended. -/
theorem claim_C2 :
    ChronoBox.findDSTTransitions (fun _ u => utcCivil (u - 60000 * dstOff u))
      1970 "America/New_York" = (some 7732800000, some 25876800000, 364) := by
  rw [findDSTTransitionsInt_eq dstOff "America/New_York" 1970]
  decide
